import Mathlib

/-!
Shallow embedding of the Roadmap Editor core: the canonical `RoadmapData`
schema, the two view projectors (pillar-major and timeframe-major), the
deterministic pillar-color assignment, the copy-on-write edit resolver
`handleEdit`, and the JSON-level validation performed by `parseRoadmapText`.

Every definition is translated from the TypeScript source.  JavaScript
mutation on a fresh deep copy (the source does
`JSON.parse(JSON.stringify(prevData))` and then mutates the copy) is rendered
as a pure function rebuilding the structure; `Array.prototype.find` is
rendered as `List.find?` (first match in list order).
-/

/-- `{ id: string, name: string }` from the `RoadmapData` interface in
`services/geminiService.ts`. -/
structure Pillar where
  id : String
  name : String
deriving DecidableEq, Repr

/-- `{ pillarId: string, tasks: string[] }`: one timeframe/pillar cell. -/
structure DeliverableGroup where
  pillarId : String
  tasks : List String
deriving DecidableEq, Repr

/-- `{ id, date, name, deliverables }` from the `RoadmapData` interface. -/
structure Timeframe where
  id : String
  date : String
  name : String
  deliverables : List DeliverableGroup
deriving DecidableEq, Repr

/-- The canonical record `RoadmapData` from `services/geminiService.ts`. -/
structure RoadmapData where
  title : String
  subtitle : String
  pillars : List Pillar
  timeframes : List Timeframe
deriving DecidableEq, Repr

/-- The `{ border, bg, dot }` value type of the `PILLAR_COLORS` map. -/
structure PillarColor where
  border : String
  bg : String
  dot : String
deriving DecidableEq, Repr

/-- The `PILLAR_COLORS` map of `EditorCanvas`: keys `p1`..`p6`, six entries. -/
def PILLAR_COLORS : List (String × PillarColor) :=
  [ ("p1", ⟨"border-blue-400", "bg-blue-900/50", "bg-blue-400"⟩),
    ("p2", ⟨"border-green-400", "bg-green-900/50", "bg-green-400"⟩),
    ("p3", ⟨"border-pink-400", "bg-pink-900/50", "bg-pink-400"⟩),
    ("p4", ⟨"border-orange-400", "bg-orange-900/50", "bg-orange-400"⟩),
    ("p5", ⟨"border-indigo-400", "bg-indigo-900/50", "bg-indigo-400"⟩),
    ("p6", ⟨"border-teal-400", "bg-teal-900/50", "bg-teal-400"⟩) ]

/-- `getPillarColor(index)`: builds the key
`p${(index % Object.keys(PILLAR_COLORS).length) + 1}` and looks it up in
`PILLAR_COLORS` (a JS map access, which can in principle miss, hence
`Option`). -/
def getPillarColor (index : Nat) : Option PillarColor :=
  PILLAR_COLORS.lookup ("p" ++ toString (index % PILLAR_COLORS.length + 1))

/-- `timeframe.deliverables.find(d => d.pillarId === pillar.id)`: the lookup
shared verbatim by `PillarView`, `TimelineView.timeframesWithPillars` and
`handleEdit` — first matching group in list order. -/
def pillarDeliverablesFor (t : Timeframe) (pid : String) : Option DeliverableGroup :=
  t.deliverables.find? (fun g => g.pillarId == pid)

/-- The shared filter of both projectors:
`if (!pillarDeliverables || pillarDeliverables.tasks.length === 0) return null`
— `none` when the group is absent or its task list is empty, otherwise the
group's tasks. -/
def visibleTasks (t : Timeframe) (pid : String) : Option (List String) :=
  match pillarDeliverablesFor t pid with
  | none => none
  | some g => if g.tasks.length == 0 then none else some g.tasks

/-- One rendered block of `PillarView`: for a fixed pillar, the timeframes
(in timeframe order) whose group for that pillar is present and non-empty,
each with its task list. -/
def pillarBlocks (d : RoadmapData) (p : Pillar) : List (Timeframe × List String) :=
  d.timeframes.filterMap (fun t => (visibleTasks t p.id).map (fun ts => (t, ts)))

/-- One column of `PillarView`: the pillar, the color from its ordinal index
(`getPillarColor(index)` in the header markup), and its blocks. -/
structure PillarColumn where
  pillar : Pillar
  color : Option PillarColor
  blocks : List (Timeframe × List String)
deriving DecidableEq, Repr

/-- `PillarView`: `data.pillars.map((pillar, index) => ...)` with, nested,
`data.timeframes.map(...)` filtered by the shared absent/empty check. -/
def pillarView (d : RoadmapData) : List PillarColumn :=
  d.pillars.enum.map (fun ip =>
    { pillar := ip.2, color := getPillarColor ip.1, blocks := pillarBlocks d ip.2 })

/-- One `{ pillar, tasks, color }` entry of
`TimelineView.timeframesWithPillars`. -/
structure TimelinePillarEntry where
  pillar : Pillar
  tasks : List String
  color : Option PillarColor
deriving DecidableEq, Repr

/-- The `deliverablesByPillar` list of one timeframe in `TimelineView`:
`data.pillars.map((pillar, index) => ...)` filtered by the shared
absent/empty check (`.filter(p => p !== null)`). -/
def pillarEntries (d : RoadmapData) (t : Timeframe) : List TimelinePillarEntry :=
  d.pillars.enum.filterMap (fun ip =>
    (visibleTasks t ip.2.id).map
      (fun ts => { pillar := ip.2, tasks := ts, color := getPillarColor ip.1 }))

/-- `TimelineView.timeframesWithPillars`: each timeframe (in timeframe order)
paired with its `deliverablesByPillar` list. -/
def timelineView (d : RoadmapData) : List (Timeframe × List TimelinePillarEntry) :=
  d.timeframes.map (fun t => (t, pillarEntries d t))

/-- The `(pillar, timeframe, tasks)` triples enumerated by the pillar-major
view, flattened in its nesting order (pillar outer, timeframe inner). -/
def pillarTriples (d : RoadmapData) : List (Pillar × Timeframe × List String) :=
  (pillarView d).flatMap (fun c => c.blocks.map (fun b => (c.pillar, b.1, b.2)))

/-- The `(pillar, timeframe, tasks)` triples enumerated by the
timeframe-major view, flattened in its nesting order (timeframe outer,
pillar inner). -/
def timelineTriples (d : RoadmapData) : List (Pillar × Timeframe × List String) :=
  (timelineView d).flatMap (fun te => te.2.map (fun e => (e.pillar, te.1, e.tasks)))

/-- The guarded write `if (deliverable.tasks[taskIndex] !== undefined)
deliverable.tasks[taskIndex] = newText`: in-bounds indices are overwritten,
out-of-bounds writes are dropped. -/
def editTasks (tasks : List String) (i : Nat) (txt : String) : List String :=
  if i < tasks.length then tasks.set i txt else tasks

/-- The group-level step of `handleEdit`:
`timeframe.deliverables.find(d => d.pillarId === pillarId)` mutates the first
matching group; when none matches, `{pillarId, tasks: []}` is pushed onto the
end of the list and the guarded write targets the fresh empty group. -/
def updateGroups : List DeliverableGroup → String → Nat → String → List DeliverableGroup
  | [], pid, i, txt => [{ pillarId := pid, tasks := editTasks [] i txt }]
  | g :: rest, pid, i, txt =>
    if g.pillarId == pid then { g with tasks := editTasks g.tasks i txt } :: rest
    else g :: updateGroups rest pid i txt

/-- The timeframe-level step of `handleEdit`:
`newData.timeframes.find(t => t.id === timeframeId)` mutates the first
matching timeframe; when none matches nothing happens. -/
def updateTimeframes : List Timeframe → String → String → Nat → String → List Timeframe
  | [], _, _, _, _ => []
  | t :: rest, tid, pid, i, txt =>
    if t.id == tid then { t with deliverables := updateGroups t.deliverables pid i txt } :: rest
    else t :: updateTimeframes rest tid pid i txt

/-- `handleEdit` of `EditorCanvas`: deep-copies the record
(`JSON.parse(JSON.stringify(prevData))`, the identity on the pure value) and
applies the path-addressed write to the copy. -/
def handleEdit (d : RoadmapData) (tid pid : String) (i : Nat) (txt : String) : RoadmapData :=
  { d with timeframes := updateTimeframes d.timeframes tid pid i txt }

/-- A JSON value as produced by `JSON.parse`; numbers are modelled as
integers (the fields checked by the validator are never fractional). -/
inductive Json where
  | null
  | bool (b : Bool)
  | num (n : Int)
  | str (s : String)
  | arr (xs : List Json)
  | obj (fields : List (String × Json))

/-- JavaScript property access `j.k`: defined (first binding) on objects,
`undefined` (`none`) on every other value and on a missing key. -/
def getField : Json → String → Option Json
  | .obj fs, k => fs.lookup k
  | _, _ => none

/-- JavaScript truthiness of a possibly-undefined value: `undefined`, `null`,
`false`, `0` and `""` are falsy; every array and object is truthy. -/
def jsTruthy : Option Json → Bool
  | none => false
  | some Json.null => false
  | some (Json.bool b) => b
  | some (Json.num n) => n != 0
  | some (Json.str s) => s != ""
  | some (Json.arr _) => true
  | some (Json.obj _) => true

/-- The validation step of `parseRoadmapText` (identical in the Gateway and
direct-Gemini branches):
`if (!parsedJson.pillars || !parsedJson.timeframes) throw ...; return parsedJson`. -/
def validateRoadmapJson (j : Json) : Except String Json :=
  if !jsTruthy (getField j "pillars") || !jsTruthy (getField j "timeframes") then
    Except.error "Parsed JSON is missing key properties pillars or timeframes."
  else
    Except.ok j

/-- Whether a possibly-undefined JSON value is list-shaped (an array). -/
def isListShaped : Option Json → Bool
  | some (Json.arr _) => true
  | _ => false

/-- A JS-falsy or undefined field value, spelled out case by case: absent,
`null`, `false`, `0`, or the empty string. -/
def absentOrFalsy (o : Option Json) : Prop :=
  o = none ∨ o = some Json.null ∨ o = some (Json.bool false) ∨
    o = some (Json.num 0) ∨ o = some (Json.str "")

/-- Concrete roadmap used to exercise the edit-resolver theorems. -/
def sampleRoadmap : RoadmapData :=
  { title := "FlowX", subtitle := "Deliverables",
    pillars := [⟨"p1", "Core"⟩, ⟨"p2", "Cloud"⟩],
    timeframes :=
      [ ⟨"t0", "2024", "Prep", [⟨"p2", ["Z"]⟩]⟩,
        ⟨"t1", "2025", "Build", [⟨"p2", ["C"]⟩, ⟨"p1", ["A", "B"]⟩]⟩ ] }

/-- Concrete roadmap whose single timeframe has no group for pillar `p2`,
used to exercise the group-append and projector theorems. -/
def sampleRoadmap2 : RoadmapData :=
  { title := "FlowX", subtitle := "Deliverables",
    pillars := [⟨"p1", "Core"⟩, ⟨"p2", "Cloud"⟩],
    timeframes := [⟨"t1", "2025", "Build", [⟨"p1", ["A", "B"]⟩]⟩] }

/-- Concrete timeframe with a duplicated `pillarId`, used to exercise the
first-match theorems. -/
def dupTimeframe : Timeframe :=
  ⟨"t1", "2025", "Build", [⟨"p1", ["A"]⟩, ⟨"p1", ["B"]⟩]⟩

/-- The at-most-one-group-per-`(timeframe, pillarId)` invariant of the
canonical schema: within every timeframe the groups' `pillarId`s are
pairwise distinct. -/
def uniqueGroups (d : RoadmapData) : Prop :=
  ∀ t ∈ d.timeframes, (t.deliverables.map (fun g => g.pillarId)).Nodup

theorem editTasks_nil (i : Nat) (txt : String) : editTasks [] i txt = [] := by
  simp [editTasks]

theorem editTasks_idem (l : List String) (i : Nat) (txt : String) :
    editTasks (editTasks l i txt) i txt = editTasks l i txt := by
  by_cases h : i < l.length
  · simp [editTasks, h, List.set_set]
  · simp [editTasks, h]

theorem updateGroups_no_match (ds : List DeliverableGroup) (pid : String) (i : Nat)
    (txt : String) (h : ∀ g ∈ ds, (g.pillarId == pid) = false) :
    updateGroups ds pid i txt = ds ++ [⟨pid, []⟩] := by
  induction ds with
  | nil => simp [updateGroups, editTasks]
  | cons g rest ih =>
    have hg := h g (List.mem_cons_self g rest)
    have ih' := ih (fun g' hg' => h g' (List.mem_cons_of_mem g hg'))
    simp [updateGroups, hg, ih']

theorem updateGroups_split (ds1 ds2 : List DeliverableGroup) (g : DeliverableGroup)
    (pid : String) (i : Nat) (txt : String)
    (h1 : ∀ g' ∈ ds1, (g'.pillarId == pid) = false) (hg : g.pillarId = pid) :
    updateGroups (ds1 ++ g :: ds2) pid i txt =
      ds1 ++ { g with tasks := editTasks g.tasks i txt } :: ds2 := by
  induction ds1 with
  | nil => simp [updateGroups, hg]
  | cons a as ih =>
    have ha := h1 a (List.mem_cons_self a as)
    have ih' := ih (fun g' hg' => h1 g' (List.mem_cons_of_mem a hg'))
    simp [updateGroups, ha, ih']

theorem updateGroups_idem (ds : List DeliverableGroup) (pid : String) (i : Nat)
    (txt : String) :
    updateGroups (updateGroups ds pid i txt) pid i txt = updateGroups ds pid i txt := by
  induction ds with
  | nil => simp [updateGroups, editTasks]
  | cons g rest ih =>
    cases h : (g.pillarId == pid) with
    | true => simp [updateGroups, h, editTasks_idem]
    | false => simp [updateGroups, h, ih]

theorem updateTimeframes_no_match (ts : List Timeframe) (tid pid : String) (i : Nat)
    (txt : String) (h : ∀ t ∈ ts, (t.id == tid) = false) :
    updateTimeframes ts tid pid i txt = ts := by
  induction ts with
  | nil => rfl
  | cons t rest ih =>
    have ht := h t (List.mem_cons_self t rest)
    have ih' := ih (fun t' ht' => h t' (List.mem_cons_of_mem t ht'))
    simp [updateTimeframes, ht, ih']

theorem updateTimeframes_split (ts1 ts2 : List Timeframe) (t : Timeframe)
    (tid pid : String) (i : Nat) (txt : String)
    (h1 : ∀ t' ∈ ts1, (t'.id == tid) = false) (ht : t.id = tid) :
    updateTimeframes (ts1 ++ t :: ts2) tid pid i txt =
      ts1 ++ { t with deliverables := updateGroups t.deliverables pid i txt } :: ts2 := by
  induction ts1 with
  | nil => simp [updateTimeframes, ht]
  | cons a as ih =>
    have ha := h1 a (List.mem_cons_self a as)
    have ih' := ih (fun t' ht' => h1 t' (List.mem_cons_of_mem a ht'))
    simp [updateTimeframes, ha, ih']

theorem updateTimeframes_idem (ts : List Timeframe) (tid pid : String) (i : Nat)
    (txt : String) :
    updateTimeframes (updateTimeframes ts tid pid i txt) tid pid i txt =
      updateTimeframes ts tid pid i txt := by
  induction ts with
  | nil => rfl
  | cons t rest ih =>
    cases h : (t.id == tid) with
    | true => simp [updateTimeframes, h, updateGroups_idem]
    | false => simp [updateTimeframes, h, ih]

theorem mem_pillarTriples {d : RoadmapData} {x : Pillar × Timeframe × List String} :
    x ∈ pillarTriples d ↔
      ∃ (i : Nat) (p : Pillar), d.pillars[i]? = some p ∧ ∃ t ∈ d.timeframes, ∃ ts,
        visibleTasks t p.id = some ts ∧ x = (p, t, ts) := by
  constructor
  · intro hx
    unfold pillarTriples pillarView at hx
    rcases List.mem_flatMap.mp hx with ⟨c, hc, hxc⟩
    rcases List.mem_map.mp hc with ⟨ip, hip, rfl⟩
    rcases List.mem_map.mp hxc with ⟨b, hb, rfl⟩
    unfold pillarBlocks at hb
    rcases List.mem_filterMap.mp hb with ⟨t, ht, hbt⟩
    rcases Option.map_eq_some'.mp hbt with ⟨ts, hts, hb2⟩
    subst hb2
    exact ⟨ip.1, ip.2, List.mem_enum_iff_getElem?.mp hip, t, ht, ts, hts, rfl⟩
  · rintro ⟨i, p, hp, t, ht, ts, hts, rfl⟩
    unfold pillarTriples pillarView
    apply List.mem_flatMap.mpr
    refine ⟨{ pillar := p, color := getPillarColor i, blocks := pillarBlocks d p }, ?_, ?_⟩
    · exact List.mem_map.mpr ⟨(i, p), List.mem_enum_iff_getElem?.mpr hp, rfl⟩
    · apply List.mem_map.mpr
      refine ⟨(t, ts), ?_, rfl⟩
      unfold pillarBlocks
      apply List.mem_filterMap.mpr
      refine ⟨t, ht, ?_⟩
      show (visibleTasks t p.id).map (fun ts => (t, ts)) = some (t, ts)
      rw [hts]
      rfl

theorem mem_timelineTriples {d : RoadmapData} {x : Pillar × Timeframe × List String} :
    x ∈ timelineTriples d ↔
      ∃ (i : Nat) (p : Pillar), d.pillars[i]? = some p ∧ ∃ t ∈ d.timeframes, ∃ ts,
        visibleTasks t p.id = some ts ∧ x = (p, t, ts) := by
  constructor
  · intro hx
    unfold timelineTriples timelineView at hx
    rcases List.mem_flatMap.mp hx with ⟨te, hte, hxte⟩
    rcases List.mem_map.mp hte with ⟨t, ht, rfl⟩
    rcases List.mem_map.mp hxte with ⟨e, he, rfl⟩
    unfold pillarEntries at he
    rcases List.mem_filterMap.mp he with ⟨ip, hip, hmap⟩
    rcases Option.map_eq_some'.mp hmap with ⟨ts, hts, he2⟩
    subst he2
    exact ⟨ip.1, ip.2, List.mem_enum_iff_getElem?.mp hip, t, ht, ts, hts, rfl⟩
  · rintro ⟨i, p, hp, t, ht, ts, hts, rfl⟩
    unfold timelineTriples timelineView
    apply List.mem_flatMap.mpr
    refine ⟨(t, pillarEntries d t), List.mem_map.mpr ⟨t, ht, rfl⟩, ?_⟩
    apply List.mem_map.mpr
    refine ⟨{ pillar := p, tasks := ts, color := getPillarColor i }, ?_, rfl⟩
    unfold pillarEntries
    apply List.mem_filterMap.mpr
    refine ⟨(i, p), List.mem_enum_iff_getElem?.mpr hp, ?_⟩
    show (visibleTasks t p.id).map _ = _
    rw [hts]
    rfl

/-- Claim C1: for every `RoadmapData` record, the pillar-major and the
timeframe-major projections enumerate exactly the same set of
`(pillar, timeframe, tasks)` triples with non-empty tasks; only the
grouping/nesting order differs. -/
theorem pillar_timeline_same_triples (d : RoadmapData)
    (x : Pillar × Timeframe × List String) :
    x ∈ pillarTriples d ↔ x ∈ timelineTriples d :=
  Iff.trans mem_pillarTriples (Iff.symm mem_timelineTriples)

theorem jsTruthy_eq_false_iff (o : Option Json) : jsTruthy o = false ↔ absentOrFalsy o := by
  cases o with
  | none => simp [jsTruthy, absentOrFalsy]
  | some j =>
    cases j with
    | null => simp [jsTruthy, absentOrFalsy]
    | bool b => cases b <;> simp [jsTruthy, absentOrFalsy]
    | num n => simp [jsTruthy, absentOrFalsy, bne_eq_false_iff_eq]
    | str s => simp [jsTruthy, absentOrFalsy, bne_eq_false_iff_eq]
    | arr xs => simp [jsTruthy, absentOrFalsy]
    | obj fs => simp [jsTruthy, absentOrFalsy]

/-- Claim C2, counterexample: the candidate whose `pillars` field is the
non-empty string `"x"` (present but not list-shaped) is accepted by the
validation step, not rejected, so validation does not fail exactly on
absent-or-non-list fields. -/
theorem validateRoadmapJson_accepts_nonlist_pillars :
    validateRoadmapJson (Json.obj [("pillars", Json.str "x"), ("timeframes", Json.arr [])]) =
      Except.ok (Json.obj [("pillars", Json.str "x"), ("timeframes", Json.arr [])]) ∧
    isListShaped
      (getField (Json.obj [("pillars", Json.str "x"), ("timeframes", Json.arr [])]) "pillars")
      = false :=
  ⟨rfl, rfl⟩

/-- Claim C2 (amended): the validation step of `parseRoadmapText` fails with
an error exactly when the `pillars` field or the `timeframes` field is absent
or JavaScript-falsy (`null`, `false`, `0`, or the empty string); any present
truthy value — including a non-empty string or a plain object — is accepted,
with no list-shape check. -/
theorem validateRoadmapJson_error_iff (j : Json) :
    (∃ e, validateRoadmapJson j = Except.error e) ↔
      (absentOrFalsy (getField j "pillars") ∨ absentOrFalsy (getField j "timeframes")) := by
  have key : (∃ e, validateRoadmapJson j = Except.error e) ↔
      (jsTruthy (getField j "pillars") = false ∨ jsTruthy (getField j "timeframes") = false) := by
    unfold validateRoadmapJson
    cases hp : jsTruthy (getField j "pillars") <;>
      cases ht : jsTruthy (getField j "timeframes") <;> simp
  rw [key, jsTruthy_eq_false_iff, jsTruthy_eq_false_iff]

/-- Claim C3: when the addressed timeframe and group exist (first matches in
list order) and `taskIndex` is within the bounds of the group's task list,
`handleEdit` changes exactly that one task string to `newText`: the title,
subtitle, pillars, every other timeframe, the timeframe's id/date/name, every
other group, and every other task are identical to the input's. -/
theorem handleEdit_in_bounds_frame (d : RoadmapData) (tid pid txt : String) (i : Nat)
    (ts1 ts2 : List Timeframe) (t : Timeframe)
    (ds1 ds2 : List DeliverableGroup) (g : DeliverableGroup)
    (hts : d.timeframes = ts1 ++ t :: ts2)
    (hts1 : ∀ t' ∈ ts1, (t'.id == tid) = false)
    (ht : t.id = tid)
    (hds : t.deliverables = ds1 ++ g :: ds2)
    (hds1 : ∀ g' ∈ ds1, (g'.pillarId == pid) = false)
    (hg : g.pillarId = pid)
    (hi : i < g.tasks.length) :
    handleEdit d tid pid i txt =
      { title := d.title, subtitle := d.subtitle, pillars := d.pillars,
        timeframes :=
          ts1 ++ { t with deliverables :=
            ds1 ++ { g with tasks := g.tasks.set i txt } :: ds2 } :: ts2 } ∧
    (g.tasks.set i txt)[i]? = some txt ∧
    ∀ j : Nat, j ≠ i → (g.tasks.set i txt)[j]? = g.tasks[j]? := by
  refine ⟨?_, List.getElem?_set_self hi, fun j hj => List.getElem?_set_ne (fun e => hj e.symm)⟩
  unfold handleEdit
  rw [hts, updateTimeframes_split ts1 ts2 t tid pid i txt hts1 ht, hds,
    updateGroups_split ds1 ds2 g pid i txt hds1 hg]
  unfold editTasks
  rw [if_pos hi]

theorem handleEdit_in_bounds_frame_exercise :
    handleEdit sampleRoadmap "t1" "p1" 1 "B2" =
      { title := "FlowX", subtitle := "Deliverables",
        pillars := [⟨"p1", "Core"⟩, ⟨"p2", "Cloud"⟩],
        timeframes :=
          [ ⟨"t0", "2024", "Prep", [⟨"p2", ["Z"]⟩]⟩,
            ⟨"t1", "2025", "Build", [⟨"p2", ["C"]⟩, ⟨"p1", ["A", "B2"]⟩]⟩ ] } :=
  (handleEdit_in_bounds_frame sampleRoadmap "t1" "p1" "B2" 1
    [⟨"t0", "2024", "Prep", [⟨"p2", ["Z"]⟩]⟩] []
    ⟨"t1", "2025", "Build", [⟨"p2", ["C"]⟩, ⟨"p1", ["A", "B"]⟩]⟩
    [⟨"p2", ["C"]⟩] [] ⟨"p1", ["A", "B"]⟩
    (by rfl) (by decide) (by rfl) (by rfl) (by decide) (by rfl) (by decide)).1

/-- Claim C4: `handleEdit` is a total function, and when no timeframe with
the given id exists it returns a record structurally equal to the input.
(The input itself is never mutated: values are immutable here, matching the
copy-on-write discipline of the source.) -/
theorem handleEdit_missing_timeframe_noop (d : RoadmapData) (tid pid : String) (i : Nat)
    (txt : String) (h : ∀ t ∈ d.timeframes, (t.id == tid) = false) :
    handleEdit d tid pid i txt = d := by
  unfold handleEdit
  rw [updateTimeframes_no_match d.timeframes tid pid i txt h]

theorem handleEdit_missing_timeframe_noop_exercise :
    handleEdit sampleRoadmap "missing-timeframe" "p1" 0 "X" = sampleRoadmap :=
  handleEdit_missing_timeframe_noop sampleRoadmap "missing-timeframe" "p1" 0 "X" (by decide)

/-- Claim C5: when the addressed timeframe exists but has no group for the
addressed pillar, `handleEdit data "t1" "p2" 0 "New"` appends a fresh group
`{pillarId := "p2", tasks := []}` at the end of that timeframe's deliverables
list, the task write is dropped (the new task list stays empty), and nothing
else changes. -/
theorem handleEdit_appends_empty_group (d : RoadmapData) (ts1 ts2 : List Timeframe)
    (t : Timeframe)
    (hts : d.timeframes = ts1 ++ t :: ts2)
    (hts1 : ∀ t' ∈ ts1, (t'.id == "t1") = false)
    (ht : t.id = "t1")
    (hnone : ∀ g ∈ t.deliverables, (g.pillarId == "p2") = false) :
    handleEdit d "t1" "p2" 0 "New" =
      { title := d.title, subtitle := d.subtitle, pillars := d.pillars,
        timeframes :=
          ts1 ++ { t with deliverables := t.deliverables ++ [⟨"p2", []⟩] } :: ts2 } := by
  unfold handleEdit
  rw [hts, updateTimeframes_split ts1 ts2 t "t1" "p2" 0 "New" hts1 ht,
    updateGroups_no_match t.deliverables "p2" 0 "New" hnone]

theorem handleEdit_appends_empty_group_exercise :
    handleEdit sampleRoadmap2 "t1" "p2" 0 "New" =
      { title := "FlowX", subtitle := "Deliverables",
        pillars := [⟨"p1", "Core"⟩, ⟨"p2", "Cloud"⟩],
        timeframes := [⟨"t1", "2025", "Build", [⟨"p1", ["A", "B"]⟩, ⟨"p2", []⟩]⟩] } :=
  handleEdit_appends_empty_group sampleRoadmap2 [] []
    ⟨"t1", "2025", "Build", [⟨"p1", ["A", "B"]⟩]⟩
    (by rfl) (by decide) (by rfl) (by decide)

/-- Claim C8: `handleEdit` is idempotent — applying the same
`(timeframeId, pillarId, taskIndex, newText)` edit a second time to the
result of the first application returns a record structurally equal to the
first result. -/
theorem handleEdit_idempotent (d : RoadmapData) (tid pid : String) (i : Nat)
    (txt : String) :
    handleEdit (handleEdit d tid pid i txt) tid pid i txt = handleEdit d tid pid i txt := by
  simp [handleEdit, updateTimeframes_idem]

/-- Claim C6: both projectors render no block for an absent group and no
block for a present-but-empty group.  For the roadmap with pillars
`[p1, p2]` and a single timeframe `t1` whose only (non-empty) group is
`{pillarId := "p1", tasks := ["A","B"]}`, the pillar projector's output for
`p2` under `t1` is absent while its output for `p1` is exactly `["A","B"]`,
the timeline projector lists only the `p1` entry, and adding an explicit
empty group `{pillarId := "p2", tasks := []}` changes neither output. -/
theorem projectors_skip_absent_and_empty (ti su n1 n2 dt nm : String) :
    (pillarView ⟨ti, su, [⟨"p1", n1⟩, ⟨"p2", n2⟩],
        [⟨"t1", dt, nm, [⟨"p1", ["A", "B"]⟩]⟩]⟩).map
        (fun c => (c.pillar.id, c.blocks.map (fun b => (b.1.id, b.2)))) =
      [("p1", [("t1", ["A", "B"])]), ("p2", [])] ∧
    (timelineView ⟨ti, su, [⟨"p1", n1⟩, ⟨"p2", n2⟩],
        [⟨"t1", dt, nm, [⟨"p1", ["A", "B"]⟩]⟩]⟩).map
        (fun te => (te.1.id, te.2.map (fun e => (e.pillar.id, e.tasks)))) =
      [("t1", [("p1", ["A", "B"])])] ∧
    (pillarView ⟨ti, su, [⟨"p1", n1⟩, ⟨"p2", n2⟩],
        [⟨"t1", dt, nm, [⟨"p1", ["A", "B"]⟩, ⟨"p2", []⟩]⟩]⟩).map
        (fun c => (c.pillar.id, c.blocks.map (fun b => (b.1.id, b.2)))) =
      [("p1", [("t1", ["A", "B"])]), ("p2", [])] ∧
    (timelineView ⟨ti, su, [⟨"p1", n1⟩, ⟨"p2", n2⟩],
        [⟨"t1", dt, nm, [⟨"p1", ["A", "B"]⟩, ⟨"p2", []⟩]⟩]⟩).map
        (fun te => (te.1.id, te.2.map (fun e => (e.pillar.id, e.tasks)))) =
      [("t1", [("p1", ["A", "B"])])] := by
  refine ⟨?_, ?_, ?_, ?_⟩ <;> rfl

/-- Claim C7: the display color is a pure function of the pillar's ordinal
index, cyclic over the six-entry palette — `color(i) = color(i + k*6)` for
all `i, k` — the pillar view attaches `getPillarColor i` to the pillar at
index `i`, and every entry of the timeline view carries the color of its
pillar's index, so the same position gets the same color in both views. -/
theorem getPillarColor_cyclic_and_shared :
    (∀ i k : Nat, getPillarColor (i + k * 6) = getPillarColor i) ∧
    (∀ (d : RoadmapData) (i : Nat),
        ((pillarView d)[i]?).map (fun c => c.color) =
          (d.pillars[i]?).map (fun _ => getPillarColor i)) ∧
    (∀ (d : RoadmapData) (te : Timeframe × List TimelinePillarEntry),
        te ∈ timelineView d → ∀ e ∈ te.2,
          ∃ i : Nat, d.pillars[i]? = some e.pillar ∧ e.color = getPillarColor i) := by
  refine ⟨?_, ?_, ?_⟩
  · intro i k
    have h6 : PILLAR_COLORS.length = 6 := rfl
    unfold getPillarColor
    rw [h6, Nat.add_mul_mod_self_right]
  · intro d i
    unfold pillarView
    rw [List.getElem?_map, List.getElem?_enum]
    cases d.pillars[i]? <;> simp
  · intro d te hte e he
    unfold timelineView at hte
    rcases List.mem_map.mp hte with ⟨t, ht, rfl⟩
    unfold pillarEntries at he
    rcases List.mem_filterMap.mp he with ⟨ip, hip, hmap⟩
    rcases Option.map_eq_some'.mp hmap with ⟨ts, hts, he2⟩
    subst he2
    exact ⟨ip.1, List.mem_enum_iff_getElem?.mp hip, rfl⟩

theorem getPillarColor_cyclic_and_shared_exercise :
    getPillarColor (2 + 3 * 6) = getPillarColor 2 ∧
    ∃ i : Nat, sampleRoadmap2.pillars[i]? = some ⟨"p1", "Core"⟩ ∧
      ({ pillar := ⟨"p1", "Core"⟩, tasks := ["A", "B"],
         color := getPillarColor 0 } : TimelinePillarEntry).color = getPillarColor i :=
  ⟨getPillarColor_cyclic_and_shared.1 2 3,
   getPillarColor_cyclic_and_shared.2.2 sampleRoadmap2
     (⟨"t1", "2025", "Build", [⟨"p1", ["A", "B"]⟩]⟩,
      [{ pillar := ⟨"p1", "Core"⟩, tasks := ["A", "B"], color := getPillarColor 0 }])
     (by decide)
     { pillar := ⟨"p1", "Core"⟩, tasks := ["A", "B"], color := getPillarColor 0 }
     (by decide)⟩

theorem find?_eq_some_of_split {α : Type} (p : α → Bool) (l1 l2 : List α) (b : α)
    (h1 : ∀ a ∈ l1, p a = false) (hb : p b = true) :
    (l1 ++ b :: l2).find? p = some b := by
  induction l1 with
  | nil => simp [List.find?_cons, hb]
  | cons a as ih =>
    have ha := h1 a (List.mem_cons_self a as)
    have ih' := ih (fun a' ha' => h1 a' (List.mem_cons_of_mem a ha'))
    simp [List.find?_cons, ha, ih']

theorem mem_pillarId_updateGroups (ds : List DeliverableGroup) (pid : String) (i : Nat)
    (txt : String) (x : String)
    (h : x ∈ (updateGroups ds pid i txt).map (fun g => g.pillarId)) :
    x ∈ ds.map (fun g => g.pillarId) ∨ x = pid := by
  induction ds with
  | nil =>
    right
    simpa [updateGroups] using h
  | cons g rest ih =>
    cases hh : (g.pillarId == pid) with
    | true =>
      simp only [updateGroups, hh, if_true, List.map_cons] at h
      rcases List.mem_cons.mp h with h1 | h1
      · exact Or.inl (by simp [h1])
      · exact Or.inl (List.mem_cons_of_mem _ h1)
    | false =>
      simp only [updateGroups, hh, Bool.false_eq_true, if_false, List.map_cons] at h
      rcases List.mem_cons.mp h with h1 | h1
      · exact Or.inl (by simp [h1])
      · rcases ih h1 with h2 | h2
        · exact Or.inl (List.mem_cons_of_mem _ h2)
        · exact Or.inr h2

theorem updateGroups_nodup (ds : List DeliverableGroup) (pid : String) (i : Nat)
    (txt : String) (h : (ds.map (fun g => g.pillarId)).Nodup) :
    ((updateGroups ds pid i txt).map (fun g => g.pillarId)).Nodup := by
  induction ds with
  | nil => simp [updateGroups]
  | cons g rest ih =>
    rw [List.map_cons, List.nodup_cons] at h
    rcases h with ⟨hg, hrest⟩
    cases hh : (g.pillarId == pid) with
    | true =>
      simp only [updateGroups, hh, if_true, List.map_cons, List.nodup_cons]
      exact ⟨hg, hrest⟩
    | false =>
      simp only [updateGroups, hh, Bool.false_eq_true, if_false, List.map_cons,
        List.nodup_cons]
      refine ⟨?_, ih hrest⟩
      intro hmem
      rcases mem_pillarId_updateGroups rest pid i txt g.pillarId hmem with h2 | h2
      · exact hg h2
      · rw [h2] at hh
        simp at hh

theorem updateTimeframes_preserves_nodup (ts : List Timeframe) (tid pid : String)
    (i : Nat) (txt : String)
    (h : ∀ t ∈ ts, (t.deliverables.map (fun g => g.pillarId)).Nodup) :
    ∀ t ∈ updateTimeframes ts tid pid i txt,
      (t.deliverables.map (fun g => g.pillarId)).Nodup := by
  induction ts with
  | nil =>
    intro t ht
    simp [updateTimeframes] at ht
  | cons a as ih =>
    intro t ht
    cases hh : (a.id == tid) with
    | true =>
      simp only [updateTimeframes, hh, if_true] at ht
      rcases List.mem_cons.mp ht with rfl | ht1
      · exact updateGroups_nodup a.deliverables pid i txt (h a (List.mem_cons_self a as))
      · exact h t (List.mem_cons_of_mem a ht1)
    | false =>
      simp only [updateTimeframes, hh, Bool.false_eq_true, if_false] at ht
      rcases List.mem_cons.mp ht with rfl | ht1
      · exact h t (List.mem_cons_self t as)
      · exact ih (fun t' ht' => h t' (List.mem_cons_of_mem a ht')) t ht1

/-- Claim C9: the edit resolver preserves the at-most-one-group-per-pair
invariant — starting from a record in which every timeframe has at most one
`DeliverableGroup` per `pillarId`, the record returned by `handleEdit` again
has at most one group per `(timeframe, pillarId)` pair. -/
theorem handleEdit_preserves_uniqueGroups (d : RoadmapData) (tid pid : String)
    (i : Nat) (txt : String) (h : uniqueGroups d) :
    uniqueGroups (handleEdit d tid pid i txt) := by
  intro t ht
  exact updateTimeframes_preserves_nodup d.timeframes tid pid i txt h t ht

theorem handleEdit_preserves_uniqueGroups_exercise :
    uniqueGroups sampleRoadmap ∧ uniqueGroups (handleEdit sampleRoadmap "t1" "p9" 0 "New") :=
  ⟨by unfold uniqueGroups; decide,
   handleEdit_preserves_uniqueGroups sampleRoadmap "t1" "p9" 0 "New"
     (by unfold uniqueGroups; decide)⟩

/-- Claim C10: when a timeframe's deliverables list contains several groups
with the same `pillarId`, only the first occurrence is observable — the
lookup both projectors use returns the first matching group (so both render
its tasks only, whatever follows it), and `handleEdit` rewrites that first
group only, leaving every earlier and later group untouched. -/
theorem first_group_shadows_duplicates (t : Timeframe) (pid txt : String) (i : Nat)
    (ds1 ds2 : List DeliverableGroup) (g : DeliverableGroup)
    (hsplit : t.deliverables = ds1 ++ g :: ds2)
    (h1 : ∀ g' ∈ ds1, (g'.pillarId == pid) = false)
    (hg : g.pillarId = pid) :
    pillarDeliverablesFor t pid = some g ∧
    visibleTasks t pid = (if g.tasks.length == 0 then none else some g.tasks) ∧
    updateGroups t.deliverables pid i txt =
      ds1 ++ { g with tasks := editTasks g.tasks i txt } :: ds2 := by
  have hfind : pillarDeliverablesFor t pid = some g := by
    unfold pillarDeliverablesFor
    rw [hsplit]
    exact find?_eq_some_of_split _ ds1 ds2 g h1 (by simp [hg])
  refine ⟨hfind, ?_, ?_⟩
  · unfold visibleTasks
    rw [hfind]
  · rw [hsplit]
    exact updateGroups_split ds1 ds2 g pid i txt h1 hg

theorem first_group_shadows_duplicates_exercise :
    pillarDeliverablesFor dupTimeframe "p1" = some ⟨"p1", ["A"]⟩ ∧
    visibleTasks dupTimeframe "p1" = some ["A"] ∧
    updateGroups dupTimeframe.deliverables "p1" 0 "A2" = [⟨"p1", ["A2"]⟩, ⟨"p1", ["B"]⟩] :=
  first_group_shadows_duplicates dupTimeframe "p1" "A2" 0 [] [⟨"p1", ["B"]⟩]
    ⟨"p1", ["A"]⟩ (by rfl) (by decide) (by rfl)
